import Mathlib

/-!
Shallow embedding of the core of the 2FA_F5 repository (a Telegram bot that
relays one-time email codes between an owner and an authorized requester).

The embedding follows the Python source:
  * `src/database/db_manager.py` / `src/database/models.py`
      — the permissions table (UNIQUE(owner_id, requester_id)), the audit log,
        and the `DatabaseManager` operations, modelled as pure state passing
        over an explicit `DBState`.
  * `src/utils/security.py` — `check_rate_limit`, modelled on the timestamp
    list stored for one (user_id, action) slot together with the module-level
    `_last_cleanup` marker.
  * `src/utils/email_parser.py` — subject-only code extraction
    (`_extract_codes_from_subject`), the freshness check (`_is_email_recent`)
    and `find_codes_in_emails` / `get_latest_code`.
  * `src/handlers/codes.py` — the `/get_code` orchestration
    (`cmd_get_code` + `process_get_code`), with an event trace recording which
    collaborators are consulted, in order.
  * `src/utils/encryption.py` — the credential vault.  The underlying Fernet
    cipher is a third-party library (`cryptography`), and `config.py` (with
    `ENCRYPTION_KEY` and `MAX_CODE_AGE_MINUTES`) is not part of the
    repository; those pieces are modelled from the spec where noted.

Timestamps are modelled as `Int` (seconds).  Bytes are `Nat` values `< 256`.
-/

/-! ## Delegation registry (src/database) -/

/-- Permission status: the `status` column of the `permissions` table holds
one of the strings `'pending'`, `'approved'`, `'denied'`. -/
inductive PermStatus
  | pending
  | approved
  | denied
deriving DecidableEq, Repr

/-- One row of the `permissions` table (src/database/models.py, lines 34-47).
The schema enforces `UNIQUE(owner_id, requester_id)`. -/
structure PermRecord where
  owner_id : Int
  requester_id : Int
  status : PermStatus
  requested_at : Int
  responded_at : Option Int
deriving DecidableEq, Repr

/-- One row of the `action_logs` table. -/
structure AuditEntry where
  user_id : Int
  action_type : String
  details : String
  timestamp : Int
deriving DecidableEq, Repr

/-- The persisted database state relevant to the delegation registry:
the `permissions` table and the append-only `action_logs` table. -/
structure DBState where
  permissions : List PermRecord
  logs : List AuditEntry
deriving DecidableEq, Repr

/-- Does a permissions row for the ordered pair (owner, requester) exist?
This is what the `UNIQUE(owner_id, requester_id)` constraint tests on INSERT. -/
def pairExists (o r : Int) (s : DBState) : Bool :=
  s.permissions.any (fun p => p.owner_id == o && p.requester_id == r)

namespace DatabaseManager

/-- `DatabaseManager.log_action` (db_manager.py, lines 345-370):
INSERT one row into `action_logs`. -/
def log_action (now : Int) (user_id : Int) (action_type details : String)
    (s : DBState) : DBState :=
  { s with logs := s.logs ++ [⟨user_id, action_type, details, now⟩] }

/-- `DatabaseManager.create_permission_request` (db_manager.py, lines 148-188):
INSERT a `'pending'` row for the pair.  If any row for the ordered pair
already exists — whatever its status — the `UNIQUE(owner_id, requester_id)`
constraint raises `sqlite3.IntegrityError` and the method returns `False`
without modifying the database.  On success it also appends an audit entry. -/
def create_permission_request (now : Int) (owner_id requester_id : Int)
    (s : DBState) : Bool × DBState :=
  if pairExists owner_id requester_id s then
    (false, s)
  else
    let s1 : DBState :=
      { s with permissions :=
          s.permissions ++ [⟨owner_id, requester_id, .pending, now, none⟩] }
    (true, log_action now requester_id "permission_request"
        "Requested access" s1)

/-- `DatabaseManager.update_permission` (db_manager.py, lines 190-230):
an unguarded `UPDATE permissions SET status = ?, responded_at = ? WHERE
owner_id = ? AND requester_id = ?`.  It touches every row matching the pair
(zero rows if none exists), appends an audit entry, and returns `True`. -/
def update_permission (now : Int) (owner_id requester_id : Int)
    (new_status : PermStatus) (s : DBState) : Bool × DBState :=
  let s1 : DBState :=
    { s with permissions :=
        s.permissions.map (fun p =>
          if p.owner_id == owner_id && p.requester_id == requester_id then
            { p with status := new_status, responded_at := some now }
          else p) }
  (true, log_action now owner_id "permission_response" "responded" s1)

/-- `DatabaseManager.check_permission` (db_manager.py, lines 232-260):
`SELECT status FROM permissions WHERE owner_id = ? AND requester_id = ?
AND status = 'approved'`, then `fetchone() is not None`.  The SQL is a
single SELECT: the returned state is the input state. -/
def check_permission (owner_id requester_id : Int) (s : DBState) :
    Bool × DBState :=
  (s.permissions.any (fun p =>
      p.owner_id == owner_id && p.requester_id == requester_id &&
      p.status == .approved),
   s)

/-- `DatabaseManager.revoke_permission` (db_manager.py, lines 308-343):
`DELETE FROM permissions WHERE owner_id = ? AND requester_id = ?`,
append an audit entry, return `True`. -/
def revoke_permission (now : Int) (owner_id requester_id : Int)
    (s : DBState) : Bool × DBState :=
  let s1 : DBState :=
    { s with permissions :=
        s.permissions.filter (fun p =>
          !(p.owner_id == owner_id && p.requester_id == requester_id)) }
  (true, log_action now owner_id "permission_revoked" "Revoked access" s1)

end DatabaseManager

/-! ## Rate limiter (src/utils/security.py) -/

/-- The in-memory rate-limit storage restricted to one `(user_id, action)`
slot: the list of recorded request timestamps for that slot
(`_rate_limit_storage[user_id][action]`), together with the module-level
`_last_cleanup` marker.  The hourly `_cleanup_rate_limit_storage` sweep
affects the queried slot by filtering it with a one-hour cutoff. -/
structure RLState where
  requests : List Int
  lastCleanup : Int
deriving DecidableEq, Repr

/-- `min(requests)` of a nonempty Python list; `0` stands in for the
`ValueError` that `min([])` would raise (the deny branch only evaluates it
on a nonempty list whenever `max_requests ≥ 1`). -/
def minList (l : List Int) : Int :=
  match l with
  | [] => 0
  | x :: xs => xs.foldl min x

/-- `_rate_limit_cleanup_interval = 3600` (security.py, line 14). -/
def rateLimitCleanupInterval : Int := 3600

/-- `check_rate_limit` (security.py, lines 130-175).  Steps, in source
order: (1) if more than an hour passed since `_last_cleanup`, sweep the
storage (for the queried slot: drop timestamps older than one hour) and
reset `_last_cleanup`; (2) prune the slot, keeping `req_time > now -
time_window`; (3) if `len(requests) >= max_requests`, deny with
`remaining = max(0, int(min(requests) + time_window - now))` and leave the
pruned list as is; otherwise append `now` and allow. -/
def check_rate_limit (max_requests time_window : Nat) (now : Int)
    (s : RLState) : (Bool × Option Int) × RLState :=
  let cleaned :=
    if rateLimitCleanupInterval < now - s.lastCleanup then
      RLState.mk (s.requests.filter (fun t => now - 3600 < t)) now
    else s
  let requests := cleaned.requests.filter (fun t => now - (time_window : Int) < t)
  if max_requests ≤ requests.length then
    let remaining := minList requests + (time_window : Int) - now
    ((false, some (max 0 remaining)), ⟨requests, cleaned.lastCleanup⟩)
  else
    ((true, none), ⟨requests ++ [now], cleaned.lastCleanup⟩)

/-! ## Mailbox code retriever (src/utils/email_parser.py) -/

/-- Python `\d` restricted to ASCII, as hit by the subject patterns. -/
def isDigitChar (c : Char) : Bool :=
  '0' ≤ c && c ≤ '9'

/-- Python `\w` (a word character: letter, digit or underscore), the class
that the `\b` anchors in `_extract_codes_from_subject` test against,
restricted to ASCII. -/
def isWordChar (c : Char) : Bool :=
  c.isAlpha || isDigitChar c || c == '_'

/-- Does `re.search(r'\b(\d{L})\b', subject)` match at position `i`?
True when positions `i..i+L-1` hold digits, position `i-1` (if any) is not
a word character, and position `i+L` (if any) is not a word character. -/
def boundaryMatchAt (s : List Char) (i L : Nat) : Bool :=
  decide (i + L ≤ s.length) &&
  ((s.drop i).take L).all isDigitChar &&
  (i == 0 || !isWordChar (s.getD (i - 1) ' ')) &&
  (i + L == s.length || !isWordChar (s.getD (i + L) ' '))

/-- `re.findall(r'\b(\d{L})\b', subject)` for a fixed run length `L`:
the matched digit runs in position order.  Two matches of this pattern can
never overlap (a second start inside a match would sit between two digits,
where there is no word boundary), so `findall`'s left-to-right scan returns
exactly the matches at every position where the pattern fits. -/
def findallDigits (L : Nat) (s : List Char) : List (List Char) :=
  (((List.range (s.length + 1)).filter (fun i => boundaryMatchAt s i L)).map
    (fun i => (s.drop i).take L))

/-- The `seen`-set de-duplication loop used by `_extract_codes_from_subject`
(email_parser.py, lines 412-419): keep the first occurrence of each value. -/
def dedupCodes (l : List (List Char)) : List (List Char) :=
  l.foldl (fun acc c => if acc.contains c then acc else acc ++ [c]) []

/-- `EmailParser._extract_codes_from_subject` (email_parser.py, lines
382-423): run `findall` for 6-digit, then 7-digit, then 8-digit patterns,
concatenate the three result lists in that order, then de-duplicate by
value keeping first occurrences. -/
def extract_codes_from_subject (s : List Char) : List (List Char) :=
  dedupCodes (findallDigits 6 s ++ findallDigits 7 s ++ findallDigits 8 s)

/-- Modelled from the spec: `config.py` is absent from the repository, so
the value of `MAX_CODE_AGE_MINUTES` is taken from §4.2/§8 of the spec
("a fixed freshness threshold (default 10 minutes)"). -/
def MAX_CODE_AGE_MINUTES : Nat := 10

/-- A fetched mailbox message as built by `EmailParser._fetch_email`:
subject, sender, parsed date and body.  The parsed date is an `Option Int`
of UTC seconds — `_parse_email_date` returns `None` when the `Date:` header
cannot be parsed, and `_is_email_recent` normalizes an aware datetime to
naive UTC before use, so a single UTC instant is the faithful shallow
value. -/
structure EmailMsg where
  subject : List Char
  fromAddr : String
  date : Option Int
  body : String
deriving DecidableEq, Repr

/-- `EmailParser._is_email_recent` (email_parser.py, lines 317-356):
`False` when the parsed date is missing; otherwise compare the age
`now_utc - email_date_utc` against `timedelta(minutes=MAX_CODE_AGE_MINUTES)`
(fresh iff `age <= max_age`). -/
def is_email_recent (now : Int) (date : Option Int) : Bool :=
  match date with
  | none => false
  | some d => now - d ≤ (MAX_CODE_AGE_MINUTES : Int) * 60

/-- One entry of the result of `find_codes_in_emails`:
`{'email': ..., 'codes': [...]}`. -/
structure EmailWithCodes where
  email : EmailMsg
  codes : List (List Char)
deriving DecidableEq, Repr

/-- `EmailParser.find_codes_in_emails` (email_parser.py, lines 279-315):
walk the (newest-first) fetched messages; skip any message that is not
recent; extract codes from the subject; keep the message only when the
code list is nonempty. -/
def find_codes_in_emails (now : Int) (emails : List EmailMsg) :
    List EmailWithCodes :=
  emails.filterMap (fun e =>
    if is_email_recent now e.date then
      let codes := extract_codes_from_subject e.subject
      if codes.isEmpty then none else some ⟨e, codes⟩
    else none)

/-- `EmailParser.get_latest_code` (email_parser.py, lines 425-488) after the
connection stage: `connectOk` is the outcome of `connect()` (`False` short-
circuits to `None`), `emails` is the newest-first list from
`get_latest_emails()`; the result is the first code of the first (newest)
message that yielded any code. -/
def get_latest_code (connectOk : Bool) (now : Int)
    (emails : List EmailMsg) : Option (List Char) :=
  if !connectOk then none
  else
    match find_codes_in_emails now emails with
    | [] => none
    | r :: _ => r.codes.head?

/-! ## Credential vault (src/utils/encryption.py) -/

namespace PasswordEncryption

/-- Modelled from the spec: the Fernet cipher used by
`PasswordEncryption._create_cipher` comes from the third-party
`cryptography` library, which is not part of this repository, and
`config.ENCRYPTION_KEY` lives in the absent `config.py`.  Per §4.4 the
vault is "an authenticated symmetric cipher keyed by a process-wide secret
(derived via a one-way hash of a configured passphrase to produce a
fixed-length key)"; `decrypt` "fails with `InvalidCiphertext` on tampered
or malformed input, never silently returning garbage".  The model keeps
those interface properties over byte lists (`Nat` values `< 256`): a
keyed, invertible body transform plus an authentication tag that any
single-byte change of the ciphertext invalidates.  `deriveKey` stands in
for the SHA-256 key derivation. -/
def deriveKey (passphrase : List Nat) : Nat :=
  (passphrase.foldl (fun a b => a + b) 7) % 256

/-- Modelled from the spec (see `PasswordEncryption.deriveKey`):
`PasswordEncryption.encrypt` (encryption.py, lines 38-68) — encrypt the
plaintext bytes under the process key and append an authentication tag. -/
def encrypt (key : Nat) (p : List Nat) : List Nat :=
  let body := p.map (fun b => (b + key) % 256)
  body ++ [(body.sum + key) % 256]

/-- Modelled from the spec (see `PasswordEncryption.deriveKey`):
`PasswordEncryption.decrypt` (encryption.py, lines 70-100) — check the
authentication tag; on mismatch fail (`none`, the `InvalidToken` exception
re-raised by the source), otherwise invert the body transform. -/
def decrypt (key : Nat) (c : List Nat) : Option (List Nat) :=
  match c.getLast? with
  | none => none
  | some tag =>
    let body := c.dropLast
    if tag = (body.sum + key) % 256 then
      some (body.map (fun b => (b + (256 - key % 256)) % 256))
    else none

end PasswordEncryption

/-! ## Access orchestrator (src/handlers/codes.py) -/

/-- One row of the `users` table (src/database/models.py, lines 22-32). -/
structure User where
  telegram_id : Int
  username : String
  email : String
  encrypted_password : List Nat
  email_provider : String
  last_code_request : Option Int
deriving DecidableEq, Repr

/-- The state a `/get_code` request touches: the `users` table, the
permissions database, and the requester's `'get_code'` rate-limit slot. -/
structure BotEnv where
  users : List User
  db : DBState
  rl : RLState
deriving DecidableEq, Repr

/-- Which external collaborator a step of the orchestration consulted. -/
inductive OrchEvent
  | rateLimiterCheck
  | permissionCheck
  | vaultDecrypt
  | mailboxFetch
deriving DecidableEq, Repr

/-- The typed outcome of a `/get_code` request. -/
inductive OrchOutcome
  | rateLimited (remaining : Int)
  | notRegistered
  | selfTarget
  | ownerNotFound
  | forbidden
  | credentialError
  | codeFound (code : List Char)
  | codeNotFound
deriving DecidableEq, Repr

/-- `DatabaseManager.update_last_code_request` (db_manager.py, lines
122-146): `UPDATE users SET last_code_request = ? WHERE telegram_id = ?`. -/
def update_last_code_request (now : Int) (telegram_id : Int)
    (users : List User) : List User :=
  users.map (fun u =>
    if u.telegram_id == telegram_id then
      { u with last_code_request := some now }
    else u)

/-- `process_get_code` (codes.py, lines 58-293), on the username branch of
the target lookup, with the side-effecting collaborators made explicit:
`key` is the vault key, `mailboxOf` maps an owner email to the outcome of
`connect()` and the newest-first fetched messages.  Source order: the
self-target guard, the owner lookup, `db.check_permission`, password
decryption (`decrypt_password`), then `EmailParser.get_latest_code`; on a
found code, `db.update_last_code_request(owner_id)` and
`db.log_action(requester, 'code_retrieved', ...)` (the owner notification
is fire-and-forget and carries no modelled state).  The third component of
the result is the trace of collaborators consulted, in order. -/
def process_get_code (key : Nat) (mailboxOf : String → Bool × List EmailMsg)
    (now : Int) (requester : User) (targetInput : String) (env : BotEnv) :
    OrchOutcome × BotEnv × List OrchEvent :=
  if requester.username == targetInput then
    (.selfTarget, env, [])
  else
    match env.users.find? (fun u => u.username == targetInput) with
    | none => (.ownerNotFound, env, [])
    | some owner =>
      if !(DatabaseManager.check_permission owner.telegram_id
            requester.telegram_id env.db).1 then
        (.forbidden, env, [.permissionCheck])
      else
        match PasswordEncryption.decrypt key owner.encrypted_password with
        | none =>
          (.credentialError, env, [.permissionCheck, .vaultDecrypt])
        | some _password =>
          let (connectOk, emails) := mailboxOf owner.email
          match get_latest_code connectOk now emails with
          | some code =>
            let users1 := update_last_code_request now owner.telegram_id env.users
            let db1 := DatabaseManager.log_action now requester.telegram_id
                "code_retrieved" "Got code" env.db
            (.codeFound code, { env with users := users1, db := db1 },
              [.permissionCheck, .vaultDecrypt, .mailboxFetch])
          | none =>
            (.codeNotFound, env,
              [.permissionCheck, .vaultDecrypt, .mailboxFetch])

/-- `cmd_get_code` (codes.py, lines 296-378) with a target argument
present: first `check_rate_limit(requester_id, 'get_code',
*RATE_LIMITS['get_code'])` — `RATE_LIMITS['get_code'] = (5, 60)` — and stop
with the remaining wait on denial; then the requester registration lookup;
then hand over to `process_get_code`. -/
def cmd_get_code (key : Nat) (mailboxOf : String → Bool × List EmailMsg)
    (now : Int) (requester_id : Int) (targetInput : String) (env : BotEnv) :
    OrchOutcome × BotEnv × List OrchEvent :=
  let ((allowed, remaining), rl1) := check_rate_limit 5 60 now env.rl
  let env1 : BotEnv := { env with rl := rl1 }
  if !allowed then
    (.rateLimited (remaining.getD 0), env1, [.rateLimiterCheck])
  else
    match env1.users.find? (fun u => u.telegram_id == requester_id) with
    | none => (.notRegistered, env1, [.rateLimiterCheck])
    | some requester =>
      let (out, env2, tr) :=
        process_get_code key mailboxOf now requester targetInput env1
      (out, env2, .rateLimiterCheck :: tr)

/-! ## Spec-side characterizations (for refutation and comparison) -/

/-- The spec's reading of candidate-code extraction (C6): a *maximal run of
digits* of length `L` starting at `i` — all of `i..i+L-1` are digits and
the neighbouring positions (when they exist) are non-digits. -/
def maximalRunAt (s : List Char) (i L : Nat) : Bool :=
  decide (i + L ≤ s.length) &&
  ((s.drop i).take L).all isDigitChar &&
  (i == 0 || !isDigitChar (s.getD (i - 1) ' ')) &&
  (i + L == s.length || !isDigitChar (s.getD (i + L) ' '))

/-- The maximal digit run of length 6, 7 or 8 starting at `i`, if any
(a maximal run has a unique length, so at most one case applies). -/
def specRunAt (s : List Char) (i : Nat) : Option (List Char) :=
  if maximalRunAt s i 6 then some ((s.drop i).take 6)
  else if maximalRunAt s i 7 then some ((s.drop i).take 7)
  else if maximalRunAt s i 8 then some ((s.drop i).take 8)
  else none

/-- The extraction behaviour C6 claims, formalised from the claim's words:
exactly the maximal runs of 6, 7 or 8 consecutive digits occurring in the
subject, in order of first appearance, de-duplicated by value. -/
def claimedExtract (s : List Char) : List (List Char) :=
  dedupCodes ((List.range (s.length + 1)).filterMap (specRunAt s))

/-- A maximal digit run of length `L` at `i` that moreover sits at word
boundaries (its neighbours, when they exist, are not letters, digits or
underscores).  This is the family the source's `\b`-anchored patterns
actually pick out. -/
def wordBoundedRunAt (s : List Char) (i L : Nat) : Bool :=
  maximalRunAt s i L &&
  (i == 0 || !isWordChar (s.getD (i - 1) ' ')) &&
  (i + L == s.length || !isWordChar (s.getD (i + L) ' '))

/-- The word-bounded maximal runs of length `L`, in order of appearance. -/
def wordBoundedRuns (L : Nat) (s : List Char) : List (List Char) :=
  (((List.range (s.length + 1)).filter (fun i => wordBoundedRunAt s i L)).map
    (fun i => (s.drop i).take L))

/-! ## Helper lemmas -/

theorem pairExists_iff (o r : Int) (s : DBState) :
    pairExists o r s = true ↔
      ∃ p ∈ s.permissions, p.owner_id = o ∧ p.requester_id = r := by
  simp [pairExists, List.any_eq_true]

theorem filter_window_collapse (l : List Int) (now : Int) (w : Nat)
    (hw : (w : Int) ≤ 3600) :
    (l.filter (fun t => now - 3600 < t)).filter
        (fun t => now - (w : Int) < t) =
      l.filter (fun t => now - (w : Int) < t) := by
  induction l with
  | nil => rfl
  | cons a l ih =>
    by_cases h1 : now - (w : Int) < a
    · have h2 : now - 3600 < a := by omega
      simp [List.filter_cons, h1, h2, ih]
    · by_cases h2 : now - 3600 < a
      · simp [List.filter_cons, h1, h2, ih]
      · simp [List.filter_cons, h1, h2, ih]

theorem foldl_min_mem (xs : List Int) (x : Int) :
    xs.foldl min x ∈ x :: xs := by
  induction xs generalizing x with
  | nil => simp
  | cons y ys ih =>
    have h := ih (min x y)
    rw [List.foldl_cons]
    rcases List.mem_cons.mp h with h1 | h1
    · rw [h1]
      rcases min_choice x y with hm | hm
      · rw [hm]; exact List.mem_cons_self x _
      · rw [hm]; exact List.mem_cons_of_mem x (List.mem_cons_self y ys)
    · exact List.mem_cons_of_mem x (List.mem_cons_of_mem y h1)

theorem minList_mem (l : List Int) (h : l ≠ []) : minList l ∈ l := by
  match l with
  | [] => exact absurd rfl h
  | x :: xs => exact foldl_min_mem xs x

theorem not_word_not_digit (c : Char) :
    isWordChar c = false → isDigitChar c = false := by
  intro h
  unfold isWordChar at h
  rcases Bool.or_eq_false_iff.mp h with ⟨h1, -⟩
  exact (Bool.or_eq_false_iff.mp h1).2

theorem boundaryMatchAt_eq_wordBounded (s : List Char) (i L : Nat) :
    boundaryMatchAt s i L = wordBoundedRunAt s i L := by
  have h1 := not_word_not_digit (s.getD (i - 1) ' ')
  have h2 := not_word_not_digit (s.getD (i + L) ' ')
  rw [Bool.eq_iff_iff]
  unfold boundaryMatchAt wordBoundedRunAt maximalRunAt
  simp only [Bool.and_eq_true, Bool.or_eq_true, Bool.not_eq_true',
    decide_eq_true_eq, beq_iff_eq]
  tauto

theorem findallDigits_eq_wordBoundedRuns (L : Nat) (s : List Char) :
    findallDigits L s = wordBoundedRuns L s := by
  unfold findallDigits wordBoundedRuns
  rw [List.filter_congr (fun i _ => boundaryMatchAt_eq_wordBounded s i L)]

theorem list_sum_set (l : List Nat) (i : Nat) (v : Nat) (h : i < l.length) :
    (l.set i v).sum + l.get ⟨i, h⟩ = l.sum + v := by
  induction l generalizing i with
  | nil => simp at h
  | cons a t ih =>
    cases i with
    | zero => simp [List.set]; omega
    | succ n =>
      have hn : n < t.length := by simpa using h
      have := ih n hn
      simp only [List.set, List.sum_cons, List.get_cons_succ]
      omega

theorem list_set_append_left (l1 l2 : List Nat) (i : Nat) (v : Nat)
    (h : i < l1.length) :
    (l1 ++ l2).set i v = l1.set i v ++ l2 := by
  induction l1 generalizing i with
  | nil => simp at h
  | cons a t ih =>
    cases i with
    | zero => rfl
    | succ n =>
      have hn : n < t.length := by simpa using h
      simp only [List.cons_append, List.set, List.append_eq]
      rw [ih n hn]

theorem list_set_append_length (l1 l2 : List Nat) (v : Nat) :
    (l1 ++ l2).set l1.length v = l1 ++ l2.set 0 v := by
  induction l1 with
  | nil => rfl
  | cons a t ih =>
    simp only [List.cons_append, List.length_cons, List.set, List.append_eq]
    rw [ih]

theorem byte_round (key b : Nat) (hb : b < 256) :
    ((b + key) % 256 + (256 - key % 256)) % 256 = b := by
  omega

theorem decrypt_concat (key : Nat) (body : List Nat) (tag : Nat) :
    PasswordEncryption.decrypt key (body ++ [tag]) =
      if tag = (body.sum + key) % 256 then
        some (body.map (fun b => (b + (256 - key % 256)) % 256))
      else none := by
  unfold PasswordEncryption.decrypt
  simp only [List.getLast?_concat, List.dropLast_concat]

theorem process_get_code_env_rl (key : Nat)
    (mbf : String → Bool × List EmailMsg) (now : Int) (requester : User)
    (target : String) (env : BotEnv) :
    (process_get_code key mbf now requester target env).2.1.rl = env.rl := by
  unfold process_get_code
  repeat first
  | rfl
  | split

theorem process_get_code_trace (key : Nat)
    (mbf : String → Bool × List EmailMsg) (now : Int) (requester : User)
    (target : String) (env : BotEnv) :
    ∃ n, (process_get_code key mbf now requester target env).2.2 =
      [OrchEvent.permissionCheck, OrchEvent.vaultDecrypt,
        OrchEvent.mailboxFetch].take n := by
  unfold process_get_code
  repeat' split
  all_goals first
    | exact ⟨0, rfl⟩
    | exact ⟨1, rfl⟩
    | exact ⟨2, rfl⟩
    | exact ⟨3, rfl⟩

theorem revoke_permissions_no_pair (now o r : Int) (s : DBState) :
    ∀ p ∈ (DatabaseManager.revoke_permission now o r s).2.permissions,
      ¬(p.owner_id = o ∧ p.requester_id = r) := by
  intro p hp
  simp only [DatabaseManager.revoke_permission, DatabaseManager.log_action,
    List.mem_filter] at hp
  intro hcon
  have := hp.2
  simp [hcon.1, hcon.2] at this

/-! ## Claim theorems -/

/-- C1: for every database state and pair (owner, requester),
`check_permission(owner, requester)` returns true iff a permissions record
for that ordered pair exists with status `'approved'`, and the call is a
pure read: the database state it hands back is exactly the input state. -/
theorem C1_check_permission_iff_approved_pure (o r : Int) (s : DBState) :
    ((DatabaseManager.check_permission o r s).1 = true ↔
      ∃ p ∈ s.permissions, p.owner_id = o ∧ p.requester_id = r ∧
        p.status = PermStatus.approved) ∧
    (DatabaseManager.check_permission o r s).2 = s := by
  constructor
  · simp [DatabaseManager.check_permission, List.any_eq_true, and_assoc]
  · rfl

/-- C3 counterexample: with a single `'denied'` record for the pair (1, 2),
a new `create_permission_request` does not succeed and does not put the
pair back in PENDING — the `UNIQUE(owner_id, requester_id)` insert fails
and the state is unchanged. -/
theorem C3_counterexample :
    ¬((DatabaseManager.create_permission_request 5 1 2
        ⟨[⟨1, 2, PermStatus.denied, 0, some 0⟩], []⟩).1 = true ∧
      ∃ p ∈ (DatabaseManager.create_permission_request 5 1 2
        ⟨[⟨1, 2, PermStatus.denied, 0, some 0⟩], []⟩).2.permissions,
        p.owner_id = 1 ∧ p.requester_id = 2 ∧
          p.status = PermStatus.pending) := by
  decide

/-- C3 amended: for every pair (owner, requester) whose permission record
currently has status `'denied'`, a new `request(owner, requester)` *fails*
(the UNIQUE constraint on the ordered pair rejects the INSERT, the method
returns `False`) and leaves the database unchanged; denial blocks retrying
until the owner deletes the record via revoke. -/
theorem C3_denied_blocks_retry (now o r : Int) (s : DBState)
    (h : ∃ p ∈ s.permissions,
      p.owner_id = o ∧ p.requester_id = r ∧ p.status = PermStatus.denied) :
    (DatabaseManager.create_permission_request now o r s).1 = false ∧
    (DatabaseManager.create_permission_request now o r s).2 = s := by
  have hex : pairExists o r s = true := by
    rw [pairExists_iff]
    obtain ⟨p, hp, h1, h2, _⟩ := h
    exact ⟨p, hp, h1, h2⟩
  simp [DatabaseManager.create_permission_request, hex]

/-- C3 witness: the amended theorem applied to the concrete denied pair. -/
theorem C3_denied_blocks_retry_witness :
    (DatabaseManager.create_permission_request 5 1 2
        ⟨[⟨1, 2, PermStatus.denied, 0, some 0⟩], []⟩).1 = false ∧
    (DatabaseManager.create_permission_request 5 1 2
        ⟨[⟨1, 2, PermStatus.denied, 0, some 0⟩], []⟩).2 =
      ⟨[⟨1, 2, PermStatus.denied, 0, some 0⟩], []⟩ :=
  C3_denied_blocks_retry 5 1 2 ⟨[⟨1, 2, PermStatus.denied, 0, some 0⟩], []⟩
    (by decide)

/-- C8: after `revoke(o, r)` the pair's record is gone, so `check(o, r)`
returns false, and a subsequent `request(o, r)` succeeds, appending a fresh
PENDING record for the pair. -/
theorem C8_revoke_check_request (now1 now2 o r : Int) (s : DBState) :
    (DatabaseManager.revoke_permission now1 o r s).1 = true ∧
    (DatabaseManager.check_permission o r
        (DatabaseManager.revoke_permission now1 o r s).2).1 = false ∧
    (DatabaseManager.create_permission_request now2 o r
        (DatabaseManager.revoke_permission now1 o r s).2).1 = true ∧
    (DatabaseManager.create_permission_request now2 o r
        (DatabaseManager.revoke_permission now1 o r s).2).2.permissions =
      (DatabaseManager.revoke_permission now1 o r s).2.permissions ++
        [⟨o, r, PermStatus.pending, now2, none⟩] := by
  have hno := revoke_permissions_no_pair now1 o r s
  have hpair :
      pairExists o r (DatabaseManager.revoke_permission now1 o r s).2 = false := by
    rw [Bool.eq_false_iff]
    intro hc
    obtain ⟨p, hp, h1, h2⟩ := (pairExists_iff o r _).mp hc
    exact hno p hp ⟨h1, h2⟩
  refine ⟨rfl, ?_, ?_, ?_⟩
  · rw [Bool.eq_false_iff]
    intro hc
    obtain ⟨p, hp, h1, h2, -⟩ := by
      simpa [DatabaseManager.check_permission, List.any_eq_true, and_assoc]
        using hc
    exact hno p hp ⟨h1, h2⟩
  · simp [DatabaseManager.create_permission_request, hpair]
  · simp [DatabaseManager.create_permission_request, hpair,
      DatabaseManager.log_action]

/-- C9: when no record exists for the pair, `update_permission` leaves the
permissions table unchanged (the unguarded UPDATE matches zero rows) and
still reports success. -/
theorem C9_update_permission_silent_noop (now o r : Int) (st : PermStatus)
    (s : DBState)
    (h : ∀ p ∈ s.permissions, ¬(p.owner_id = o ∧ p.requester_id = r)) :
    (DatabaseManager.update_permission now o r st s).1 = true ∧
    (DatabaseManager.update_permission now o r st s).2.permissions =
      s.permissions := by
  refine ⟨rfl, ?_⟩
  simp only [DatabaseManager.update_permission, DatabaseManager.log_action]
  have : ∀ p ∈ s.permissions,
      (if p.owner_id == o && p.requester_id == r then
        { p with status := st, responded_at := some now }
      else p) = p := by
    intro p hp
    have hne : ¬(p.owner_id == o && p.requester_id == r) = true := by
      simpa using h p hp
    simp [hne]
  calc (s.permissions.map fun p =>
          if p.owner_id == o && p.requester_id == r then
            { p with status := st, responded_at := some now }
          else p)
      = s.permissions.map id := List.map_congr_left this
    _ = s.permissions := List.map_id s.permissions

/-- C5: `check_rate_limit` implements a sliding window.  Writing `pruned`
for the stored timestamps still inside the trailing window, the call allows
and records `now` exactly when `pruned` has fewer than `max_requests`
entries; otherwise it denies with `remaining = (oldest recorded timestamp +
window) - now` and stores `pruned` unchanged.  The hypothesis
`time_window ≤ 3600` (every configured window in `RATE_LIMITS` is at most
300 seconds) makes the hourly cleanup sweep invisible: its one-hour cutoff
is subsumed by the window cutoff. -/
theorem C5_check_rate_limit_sliding_window (max_requests time_window : Nat)
    (now : Int) (s : RLState) (hw : (time_window : Int) ≤ 3600)
    (hm : 0 < max_requests) :
    ((s.requests.filter (fun t => now - (time_window : Int) < t)).length <
        max_requests →
      (check_rate_limit max_requests time_window now s).1 = (true, none) ∧
      (check_rate_limit max_requests time_window now s).2.requests =
        s.requests.filter (fun t => now - (time_window : Int) < t) ++ [now]) ∧
    (max_requests ≤
        (s.requests.filter (fun t => now - (time_window : Int) < t)).length →
      (check_rate_limit max_requests time_window now s).1 =
        (false, some
          (minList (s.requests.filter (fun t => now - (time_window : Int) < t)) +
            (time_window : Int) - now)) ∧
      (check_rate_limit max_requests time_window now s).2.requests =
        s.requests.filter (fun t => now - (time_window : Int) < t)) := by
  have hcollapse :
      ((s.requests.filter (fun t => now - 3600 < t)).filter
        (fun t => now - (time_window : Int) < t)) =
      s.requests.filter (fun t => now - (time_window : Int) < t) :=
    filter_window_collapse s.requests now time_window hw
  set pruned := s.requests.filter (fun t => now - (time_window : Int) < t)
    with hpruned
  have hreq :
      (if rateLimitCleanupInterval < now - s.lastCleanup then
        RLState.mk (s.requests.filter (fun t => now - 3600 < t)) now
      else s).requests.filter (fun t => now - (time_window : Int) < t) =
        pruned := by
    by_cases hcl : rateLimitCleanupInterval < now - s.lastCleanup
    · simp [hcl, hcollapse]
    · simp [hcl]
  constructor
  · intro hlt
    have hnot : ¬ max_requests ≤ pruned.length := Nat.not_le.mpr hlt
    constructor
    · simp only [check_rate_limit, hreq]
      simp [hnot]
    · simp only [check_rate_limit, hreq]
      simp [hnot]
  · intro hge
    have hne : pruned ≠ [] := by
      intro hnil
      rw [hnil] at hge
      simp at hge
      omega
    have hmem : minList pruned ∈ pruned := minList_mem pruned hne
    have hbig : now - (time_window : Int) < minList pruned := by
      rw [hpruned] at hmem
      have h2 := (List.mem_filter.mp hmem).2
      rw [hpruned]
      simpa using h2
    have hpos : (0 : Int) ≤ minList pruned + (time_window : Int) - now := by
      omega
    constructor
    · simp only [check_rate_limit, hreq]
      simp [hge, max_eq_right hpos]
    · simp only [check_rate_limit, hreq]
      simp [hge]

/-- C5 witness: with `max = 5`, `window = 60s` and five timestamps already
recorded within one second, the sixth call at `now = 1` is denied with
`remaining = 59` and nothing is recorded. -/
theorem C5_check_rate_limit_sliding_window_witness :
    (check_rate_limit 5 60 1 ⟨[0, 0, 1, 1, 1], 0⟩).1 = (false, some 59) ∧
    (check_rate_limit 5 60 1 ⟨[0, 0, 1, 1, 1], 0⟩).2.requests =
      [0, 0, 1, 1, 1] := by
  have h := (C5_check_rate_limit_sliding_window 5 60 1 ⟨[0, 0, 1, 1, 1], 0⟩
    (by norm_num) (by norm_num)).2 (by decide)
  exact h

/-- C10: whenever `check_rate_limit` denies a call it does not record the
attempt — the stored timestamp list afterwards is exactly the pruned list
of still-in-window timestamps — and a slot that held at most `max_requests`
entries before the call still holds at most `max_requests` afterwards. -/
theorem C10_deny_records_nothing (max_requests time_window : Nat)
    (now : Int) (s : RLState) (hw : (time_window : Int) ≤ 3600) :
    ((check_rate_limit max_requests time_window now s).1.1 = false →
      (check_rate_limit max_requests time_window now s).2.requests =
        s.requests.filter (fun t => now - (time_window : Int) < t)) ∧
    (s.requests.length ≤ max_requests →
      (check_rate_limit max_requests time_window now s).2.requests.length ≤
        max_requests) := by
  have hcollapse :
      ((s.requests.filter (fun t => now - 3600 < t)).filter
        (fun t => now - (time_window : Int) < t)) =
      s.requests.filter (fun t => now - (time_window : Int) < t) :=
    filter_window_collapse s.requests now time_window hw
  set pruned := s.requests.filter (fun t => now - (time_window : Int) < t)
    with hpruned
  have hreq :
      (if rateLimitCleanupInterval < now - s.lastCleanup then
        RLState.mk (s.requests.filter (fun t => now - 3600 < t)) now
      else s).requests.filter (fun t => now - (time_window : Int) < t) =
        pruned := by
    by_cases hcl : rateLimitCleanupInterval < now - s.lastCleanup
    · simp [hcl, hcollapse]
    · simp [hcl]
  have hlen : pruned.length ≤ s.requests.length := by
    rw [hpruned]
    exact List.length_filter_le _ _
  by_cases hge : max_requests ≤ pruned.length
  · constructor
    · intro _
      simp only [check_rate_limit, hreq]
      simp [hge]
    · intro hbound
      simp only [check_rate_limit, hreq]
      simp only [hge, if_true]
      omega
  · constructor
    · intro hfalse
      exfalso
      simp only [check_rate_limit, hreq] at hfalse
      simp [hge] at hfalse
    · intro _
      simp only [check_rate_limit, hreq]
      simp only [hge, if_false]
      simp only [List.length_append, List.length_cons, List.length_nil]
      omega

/-- C10 witness: a denied call (five recorded timestamps, `max = 5`) keeps
the pruned list exactly, and the bound `≤ 5` is preserved. -/
theorem C10_deny_records_nothing_witness :
    (check_rate_limit 5 60 1 ⟨[0, 0, 1, 1, 1], 0⟩).2.requests =
      List.filter (fun t => decide ((1 : Int) - 60 < t)) [0, 0, 1, 1, 1] ∧
    (check_rate_limit 5 60 1 ⟨[0, 0, 1, 1, 1], 0⟩).2.requests.length ≤ 5 := by
  have h := C10_deny_records_nothing 5 60 1 ⟨[0, 0, 1, 1, 1], 0⟩ (by norm_num)
  exact ⟨h.1 (by decide), h.2 (by decide)⟩

/-- C7: a fetched message whose parsed date is missing, or whose UTC age
exceeds the 10-minute freshness threshold, contributes no entry to
`find_codes_in_emails` — and hence no candidate codes — regardless of its
subject content. -/
theorem C7_stale_message_yields_no_codes (now : Int) (emails : List EmailMsg)
    (e : EmailMsg) (_he : e ∈ emails)
    (h : e.date = none ∨ ∃ d, e.date = some d ∧
      (MAX_CODE_AGE_MINUTES : Int) * 60 < now - d) :
    e ∉ (find_codes_in_emails now emails).map (fun r => r.email) := by
  have hstale : is_email_recent now e.date = false := by
    rcases h with h | ⟨d, hd, hgt⟩
    · rw [h]; rfl
    · rw [hd]
      simp only [is_email_recent, decide_eq_false_iff_not]
      omega
  intro hmem
  obtain ⟨r, hr, hre⟩ := List.mem_map.mp hmem
  obtain ⟨e2, he2, hfe⟩ := List.mem_filterMap.mp hr
  by_cases hrec : is_email_recent now e2.date = true
  · rw [if_pos hrec] at hfe
    by_cases hemp : (extract_codes_from_subject e2.subject).isEmpty = true
    · rw [if_pos hemp] at hfe
      exact Option.noConfusion hfe
    · rw [if_neg hemp] at hfe
      have hr2 : r.email = e2 := by
        cases Option.some.inj hfe
        rfl
      rw [hr2] at hre
      rw [hre] at hrec
      rw [hstale] at hrec
      exact Bool.noConfusion hrec
  · rw [if_neg hrec] at hfe
    exact Option.noConfusion hfe

/-- C7 witness: a message dated 11 minutes and 1 second before `now`, with
a code-bearing subject, yields nothing. -/
theorem C7_stale_message_yields_no_codes_witness :
    (⟨"Your code is 123456".toList, "svc@example.com", some 0, ""⟩ : EmailMsg) ∉
      (find_codes_in_emails 661
        [⟨"Your code is 123456".toList, "svc@example.com", some 0, ""⟩]).map
        (fun r => r.email) :=
  C7_stale_message_yields_no_codes 661
    [⟨"Your code is 123456".toList, "svc@example.com", some 0, ""⟩]
    ⟨"Your code is 123456".toList, "svc@example.com", some 0, ""⟩
    (List.mem_singleton.mpr rfl)
    (Or.inr ⟨0, rfl, by norm_num [MAX_CODE_AGE_MINUTES]⟩)

/-- C6 counterexample: on the subject `"12345678 123456"` the source
returns `["123456", "12345678"]` — all 6-digit runs first, then the 8-digit
run — while the claim's reading (maximal digit runs in order of first
appearance) expects `["12345678", "123456"]`. -/
theorem C6_counterexample :
    extract_codes_from_subject "12345678 123456".toList ≠
      claimedExtract "12345678 123456".toList := by
  decide

/-- C6 amended: candidate-code extraction returns exactly the maximal runs
of 6, 7 or 8 consecutive digits that sit at word boundaries (a run
adjacent to a letter, digit or underscore is skipped), de-duplicated by
value, but listed grouped by run length — all 6-digit runs in order of
first appearance, then the 7-digit runs, then the 8-digit runs — rather
than in overall order of first appearance. -/
theorem C6_extraction_by_length_groups (s : List Char) :
    extract_codes_from_subject s =
      dedupCodes (wordBoundedRuns 6 s ++ wordBoundedRuns 7 s ++
        wordBoundedRuns 8 s) := by
  unfold extract_codes_from_subject
  rw [findallDigits_eq_wordBoundedRuns, findallDigits_eq_wordBoundedRuns,
    findallDigits_eq_wordBoundedRuns]

/-- C4: for every plaintext (a list of bytes), `decrypt(encrypt(p)) = p`;
and corrupting a valid ciphertext at any single position — replacing the
byte there by any other byte value, which covers any single bit flip —
makes `decrypt` fail (return `none`, the authenticated-encryption error)
rather than return any plaintext. -/
theorem C4_vault_roundtrip_and_tamper_detect (key : Nat) (p : List Nat)
    (i b2 : Nat) (hp : ∀ b ∈ p, b < 256) (hb : b2 < 256)
    (hi : i < (PasswordEncryption.encrypt key p).length)
    (hne : b2 ≠ (PasswordEncryption.encrypt key p).get ⟨i, hi⟩) :
    PasswordEncryption.decrypt key (PasswordEncryption.encrypt key p) =
      some p ∧
    PasswordEncryption.decrypt key
      ((PasswordEncryption.encrypt key p).set i b2) = none := by
  have henc : PasswordEncryption.encrypt key p =
      p.map (fun b => (b + key) % 256) ++
        [((p.map (fun b => (b + key) % 256)).sum + key) % 256] := rfl
  set body := p.map (fun b => (b + key) % 256) with hbody
  set tag := (body.sum + key) % 256 with htag
  have hlen : (PasswordEncryption.encrypt key p).length = body.length + 1 := by
    rw [henc]; simp
  constructor
  · rw [henc, decrypt_concat, if_pos rfl, hbody, List.map_map]
    have hext : ∀ b ∈ p,
        ((fun b => (b + (256 - key % 256)) % 256) ∘
          (fun b => (b + key) % 256)) b = id b := by
      intro b hbmem
      exact byte_round key b (hp b hbmem)
    rw [List.map_congr_left hext, List.map_id]
  · by_cases hcase : i < body.length
    · have hget1 : (PasswordEncryption.encrypt key p).get ⟨i, hi⟩ =
          body.get ⟨i, hcase⟩ :=
        List.get_append_left body [tag] hcase
      have hne2 : b2 ≠ body.get ⟨i, hcase⟩ := by
        rw [← hget1]; exact hne
      have hbi : body.get ⟨i, hcase⟩ < 256 := by
        have hmemb : body.get ⟨i, hcase⟩ ∈
            List.map (fun b => (b + key) % 256) p := List.get_mem body i hcase
        obtain ⟨a, -, hae⟩ := List.mem_map.mp hmemb
        rw [← hae]
        exact Nat.mod_lt _ (by norm_num)
      have hsum := list_sum_set body i b2 hcase
      rw [henc, list_set_append_left body [tag] i b2 hcase, decrypt_concat,
        if_neg]
      intro hcon
      rw [htag] at hcon
      omega
    · have hieq : i = body.length := by omega
      subst hieq
      have hget2 : (PasswordEncryption.encrypt key p).get ⟨body.length, hi⟩ =
          tag := by
        rw [List.get_eq_getElem]
        exact List.getElem_concat_length body tag body.length rfl _
      have hne2 : b2 ≠ tag := by
        rw [← hget2]; exact hne
      rw [henc, list_set_append_length body [tag] b2, List.set_cons_zero,
        decrypt_concat, if_neg]
      intro hcon
      exact hne2 (hcon.trans htag.symm)

/-- C4 witness: the theorem at key 7, plaintext bytes `[104, 105]`
(ciphertext `[111, 112, 230]`), corrupting position 0 to the byte 0. -/
theorem C4_vault_roundtrip_and_tamper_detect_witness :
    PasswordEncryption.decrypt 7 (PasswordEncryption.encrypt 7 [104, 105]) =
      some [104, 105] ∧
    PasswordEncryption.decrypt 7
      ((PasswordEncryption.encrypt 7 [104, 105]).set 0 0) = none :=
  C4_vault_roundtrip_and_tamper_detect 7 [104, 105] 0 0 (by decide)
    (by decide) (by decide) (by decide)

/-- C2 counterexample: in a two-user environment with no delegations, a
`/get_code` command by requester 2 targeting owner 1 is `Forbidden`, yet
the trace shows the Rate Limiter consulted *before* the Delegation
Registry, and the requester's `'get_code'` rate-limit slot has recorded
the attempt (`[100]`) — an unauthorized requester does consume a
rate-limit slot, contradicting the claimed order and its consequence. -/
theorem C2_counterexample :
    (DatabaseManager.check_permission 1 2 (DBState.mk [] [])).1 = false ∧
    (cmd_get_code 0 (fun _ => (false, [])) 100 2 "alice"
      (BotEnv.mk
        [⟨1, "alice", "a@example.com", [0], "gmail", none⟩,
         ⟨2, "bob", "b@example.com", [0], "gmail", none⟩]
        (DBState.mk [] []) (RLState.mk [] 0))).1 = OrchOutcome.forbidden ∧
    (cmd_get_code 0 (fun _ => (false, [])) 100 2 "alice"
      (BotEnv.mk
        [⟨1, "alice", "a@example.com", [0], "gmail", none⟩,
         ⟨2, "bob", "b@example.com", [0], "gmail", none⟩]
        (DBState.mk [] []) (RLState.mk [] 0))).2.2 =
      [OrchEvent.rateLimiterCheck, OrchEvent.permissionCheck] ∧
    (cmd_get_code 0 (fun _ => (false, [])) 100 2 "alice"
      (BotEnv.mk
        [⟨1, "alice", "a@example.com", [0], "gmail", none⟩,
         ⟨2, "bob", "b@example.com", [0], "gmail", none⟩]
        (DBState.mk [] []) (RLState.mk [] 0))).2.1.rl.requests = [100] := by
  refine ⟨rfl, ?_, ?_, ?_⟩ <;> rfl

/-- C2 amended: on the command path (`cmd_get_code` → `process_get_code`)
the orchestration consults the Rate Limiter first, then the Delegation
Registry, then the Credential Vault, then the Mailbox Code Retriever, in
that order (every trace is a prefix of that sequence); and the requester's
rate-limit slot after the call is exactly the slot state produced by the
initial `check_rate_limit` call, so a requester who lacks an approved
delegation has already consumed a rate-limit slot before the permission
check rejects the request. -/
theorem C2_command_path_consultation_order (key : Nat)
    (mbf : String → Bool × List EmailMsg) (now : Int) (requester_id : Int)
    (target : String) (env : BotEnv) :
    (∃ n, (cmd_get_code key mbf now requester_id target env).2.2 =
      [OrchEvent.rateLimiterCheck, OrchEvent.permissionCheck,
        OrchEvent.vaultDecrypt, OrchEvent.mailboxFetch].take n) ∧
    (cmd_get_code key mbf now requester_id target env).2.1.rl =
      (check_rate_limit 5 60 now env.rl).2 := by
  unfold cmd_get_code
  rcases hc : check_rate_limit 5 60 now env.rl with ⟨⟨allowed, remaining⟩, rl1⟩
  simp only [hc]
  cases allowed with
  | false => exact ⟨⟨1, rfl⟩, rfl⟩
  | true =>
    simp only [Bool.not_true, Bool.false_eq_true, if_false]
    cases hfind : ({ env with rl := rl1 } : BotEnv).users.find?
        (fun u => u.telegram_id == requester_id) with
    | none => exact ⟨⟨1, rfl⟩, rfl⟩
    | some requester =>
      rcases hp : process_get_code key mbf now requester target
          { env with rl := rl1 } with ⟨out, env2, tr⟩
      simp only [hp]
      constructor
      · obtain ⟨n, hn⟩ := process_get_code_trace key mbf now requester target
          { env with rl := rl1 }
        rw [hp] at hn
        simp only at hn
        refine ⟨n + 1, ?_⟩
        rw [List.take_succ_cons, ← hn]
      · have hr := process_get_code_env_rl key mbf now requester target
          { env with rl := rl1 }
        rw [hp] at hr
        simpa using hr
theorem C9_update_permission_silent_noop_witness :
    (DatabaseManager.update_permission 9 1 2 PermStatus.approved
        ⟨[⟨3, 4, PermStatus.approved, 0, none⟩], []⟩).1 = true ∧
    (DatabaseManager.update_permission 9 1 2 PermStatus.approved
        ⟨[⟨3, 4, PermStatus.approved, 0, none⟩], []⟩).2.permissions =
      [⟨3, 4, PermStatus.approved, 0, none⟩] :=
  C9_update_permission_silent_noop 9 1 2 PermStatus.approved
    ⟨[⟨3, 4, PermStatus.approved, 0, none⟩], []⟩ (by decide)
